import Mathlib

/-!
Shallow embedding of the Parser/Renderable core of the simple-streamlit repository
and its Topic event system, with theorems settling the claims of the specification.

Python values are modelled by the inductive `Value`, exceptions by `Exc`.
Wall-clock metric fields, logging output and asyncio scheduling internals are
outside the embedding; where such an omission touches a claim it is noted at
the definition that makes it.
-/

/-- Python exception values, as far as the embedded code distinguishes them. -/
inductive Exc where
  | valueError (msg : String)
  | typeError (msg : String)
  | permissionError (msg : String)
  | topicProcessingError (msg : String)
  | unboundLocalError (msg : String)
  | runtimeError (msg : String)
  | exception (msg : String)
  | userExc (tag : Nat) (msg : String)
  deriving Repr, DecidableEq

/-- Python values appearing as component arguments and render results. -/
inductive Value where
  | vnone
  | vbool (b : Bool)
  | vint (n : Int)
  | vstr (s : String)
  deriving Repr, DecidableEq

/-- Python truthiness of a `Value`. -/
def Value.truthy : Value → Bool
  | .vnone => false
  | .vbool b => b
  | .vint n => n != 0
  | .vstr s => !(s == "")

/-- Keyword arguments: an ordered mapping from names to values. -/
abbrev KwArgs := List (String × Value)

/-- Arguments of one base-component invocation: positional and keyword. -/
abbrev ArgPair := List Value × KwArgs

/-- st_simple/err/nonrender.py lines 2-25, class `NonRenderError`: the marker
produced when a render error is not handled. `component` holds the identity
(`cid`) of the originating Renderable, standing for the `self` reference the
source stores in the marker. -/
structure NonRenderError where
  message : Exc
  fatal : Bool
  component : Nat
  deriving Repr, DecidableEq

/-- nonrender.py lines 8-9: `was_fatal` returns the fatal flag. -/
def NonRenderError.was_fatal (m : NonRenderError) : Bool := m.fatal

/-- nonrender.py lines 24-25: `__bool__` returns the fatal flag, so the
truthiness of the marker equals `fatal`. -/
def NonRenderError.toBool (m : NonRenderError) : Bool := m.fatal

/-- nonrender.py lines 11-15: `__call__`. When fatal it executes
`raise self from self.message`; `NonRenderError` is declared as a plain class
with no `Exception` base, and Python rejects raising a non-BaseException
instance, so what the call actually raises is
`TypeError: exceptions must derive from BaseException` - not the original
exception. When not fatal it returns the `(message, component)` pair. -/
def NonRenderError.call (m : NonRenderError) : Except Exc (Exc × Nat) :=
  if m.was_fatal then
    .error (.typeError "exceptions must derive from BaseException")
  else
    .ok (m.message, m.component)

/-- What `_safe_render` returns: the truthy render result, Python `None`
(falsy render result, or an error suppressed by the handler), or the
`NonRenderError` marker. -/
inductive RenderResult where
  | value (v : Value)
  | pynone
  | marker (m : NonRenderError)
  deriving Repr, DecidableEq

/-- State shared by the simplest and st_simple `Renderable.__init__`
(renderable.py): stored args/kwargs, the optional base component (a function
from args and kwargs to a result or a raised exception), the fatal flag, the
optional error handler (returning the truthiness of its verdict) and the
effect chain. `cid` is an identity for the `self` reference placed into
`NonRenderError` markers. -/
structure Renderable where
  cid : Nat
  args : List Value
  kwargs : KwArgs
  base : Option (List Value → KwArgs → Except Exc Value)
  fatal : Bool
  errhandler : Option (Exc → Bool)
  effects : List (Value → Except Exc Unit)

/-- simplest/core/components/velement.py lines 20-31: `VElement.render`
invokes the base component with the STORED args and kwargs, ignoring the
parameters it was given. The second component of the result records the
arguments the base component received. -/
def Renderable.render_velement_simplest (r : Renderable)
    (_args : List Value) (_kwargs : KwArgs) : Except Exc Value × ArgPair :=
  match r.base with
  | some f => (f r.args r.kwargs, (r.args, r.kwargs))
  | none => (.error (.typeError "NoneType object is not callable"), (r.args, r.kwargs))

/-- st_simple/core/components/velement.py lines 20-33: `VElement.render`
computes `args = args or self.args` and `kwargs = kwargs or self.kwargs`, so
call-time positional args replace the stored ones only when non-empty, and
likewise for kwargs, each independently; the base component is invoked with
the outcome. The second component records the arguments it received. -/
def Renderable.render_velement_st (r : Renderable)
    (args : List Value) (kwargs : KwArgs) : Except Exc Value × ArgPair :=
  let a := if args.isEmpty then r.args else args
  let k := if kwargs.isEmpty then r.kwargs else kwargs
  match r.base with
  | some f => (f a k, (a, k))
  | none => (.error (.typeError "NoneType object is not callable"), (a, k))

/-- The except clause of `_safe_render` (simplest renderable.py lines
174-182, st_simple renderable.py lines 231-239): the error handler, when
present, is consulted; a truthy verdict suppresses the error (the method then
returns Python None), otherwise the `NonRenderError` marker built from the
exception, the fatal flag and the component is returned. -/
def Renderable.renderExcept (r : Renderable) (e : Exc) : RenderResult :=
  let status :=
    match r.errhandler with
    | some h => h e
    | none => false
  if status then .pynone else .marker ⟨e, r.fatal, r.cid⟩

/-- simplest renderable.py lines 170-173: the effect loop of `_safe_render`
runs inside the same try block as the render call, so the first raising
effect aborts the loop and its exception escapes to the except clause.
Returns the escaping exception, if any, and the indices (offset by `i`) of
the effects that were invoked. -/
def runEffectsSimplest (effects : List (Value → Except Exc Unit)) (i : Nat)
    (v : Value) : Option Exc × List Nat :=
  match effects with
  | [] => (none, [])
  | eff :: rest =>
    match eff v with
    | .ok _ =>
      let (o, l) := runEffectsSimplest rest (i + 1) v
      (o, i :: l)
    | .error e => (some e, [i])

/-- st_simple renderable.py lines 180-205: `_safe_effect_execution`. The
exception of the effect is caught individually; when an error handler is present
its verdict decides (`raise e` re-raises the original exception on a falsy
verdict). When no error handler is set the local `status` was never
assigned, so evaluating `if not status` raises UnboundLocalError (line 204)
instead of the exception the effect raised. Returns the exception escaping the
method, if any. -/
def Renderable.safe_effect_execution (r : Renderable)
    (eff : Value → Except Exc Unit) (v : Value) : Option Exc :=
  match eff v with
  | .ok _ => none
  | .error e =>
    match r.errhandler with
    | some h => if h e then none else some e
    | none => some (.unboundLocalError "local variable status referenced before assignment")

/-- st_simple renderable.py lines 227-229: the effect loop of `_safe_render`,
each effect guarded by `_safe_effect_execution`; an exception escaping that
guard aborts the loop and escapes to the except clause of `_safe_render`.
Returns the escaping exception, if any, and the indices (offset by `i`) of
the effects that were invoked. -/
def runEffectsSt (r : Renderable) (effects : List (Value → Except Exc Unit))
    (i : Nat) (v : Value) : Option Exc × List Nat :=
  match effects with
  | [] => (none, [])
  | eff :: rest =>
    match r.safe_effect_execution eff v with
    | none =>
      let (o, l) := runEffectsSt r rest (i + 1) v
      (o, i :: l)
    | some e => (some e, [i])

/-- simplest renderable.py lines 154-182: `_safe_render` over the simplest
`VElement.render`. Effects run only on a truthy render result; a falsy one
falls through to Python None. Returns the result, the arguments the base
component received, and the indices of the effects invoked. -/
def Renderable.safe_render_simplest (r : Renderable)
    (args : List Value) (kwargs : KwArgs) :
    RenderResult × ArgPair × List Nat :=
  match r.render_velement_simplest args kwargs with
  | (.ok v, bc) =>
    if v.truthy then
      match runEffectsSimplest r.effects 0 v with
      | (none, l) => (.value v, bc, l)
      | (some e, l) => (r.renderExcept e, bc, l)
    else (.pynone, bc, [])
  | (.error e, bc) => (r.renderExcept e, bc, [])

/-- st_simple renderable.py lines 207-239: `_safe_render` over the st_simple
`VElement.render`, with the effect loop guarded by `_safe_effect_execution`. -/
def Renderable.safe_render_st (r : Renderable)
    (args : List Value) (kwargs : KwArgs) :
    RenderResult × ArgPair × List Nat :=
  match r.render_velement_st args kwargs with
  | (.ok v, bc) =>
    if v.truthy then
      match runEffectsSt r r.effects 0 v with
      | (none, l) => (.value v, bc, l)
      | (some e, l) => (r.renderExcept e, bc, l)
    else (.pynone, bc, [])
  | (.error e, bc) => (r.renderExcept e, bc, [])

/-- simplest renderable.py lines 184-204: `__call__` raises when no base
component is set, and otherwise forwards the call-time arguments to
`_safe_render` when at least one was given, else the stored ones. -/
def Renderable.call_simplest (r : Renderable)
    (args : List Value) (kwargs : KwArgs) :
    Except Exc (RenderResult × ArgPair × List Nat) :=
  match r.base with
  | none => .error (.exception "The base component is not set")
  | some _ =>
    if args.isEmpty && kwargs.isEmpty then
      .ok (r.safe_render_simplest r.args r.kwargs)
    else
      .ok (r.safe_render_simplest args kwargs)

/-- st_simple renderable.py lines 241-265: `__call__`, same argument
selection; the missing-base error is a ValueError in this variant. -/
def Renderable.call_st (r : Renderable)
    (args : List Value) (kwargs : KwArgs) :
    Except Exc (RenderResult × ArgPair × List Nat) :=
  match r.base with
  | none => .error (.valueError "The base component is not set")
  | some _ =>
    if args.isEmpty && kwargs.isEmpty then
      .ok (r.safe_render_st r.args r.kwargs)
    else
      .ok (r.safe_render_st args kwargs)

/-- topic.py lines 46-52: the error handling strategies. -/
inductive ErrorStrategy where
  | RAISE
  | WARN
  | IGNORE
  | CUSTOM
  deriving Repr, DecidableEq

/-- topic.py message shape as consumed by `publish_event`/`handle_event`:
`sender`, an optional `destination` (read with `event.get`), and `data`. -/
structure TopicMessage where
  sender : String
  destination : Option String
  data : Value
  deriving Repr, DecidableEq

/-- Payload stored beside an exception in the dead-letter queue: handler
failures record the event data (topic.py lines 329 and 441), a security
rejection records the whole event (line 416). -/
inductive ErrPayload where
  | dataOf (v : Value)
  | eventOf (m : TopicMessage)
  deriving Repr, DecidableEq

/-- One entry of `BaseTopic._handlers` (topic.py lines 279-286): the handler
metadata plus the user handler function itself (`behavior`); the
error-catching wrapper around it is modelled by `TopicState.syncWrapper`. -/
structure Handler where
  name : String
  aliases : List String
  priority : Int
  generic : Bool
  isAsync : Bool
  behavior : Value → Except Exc Unit

/-- The `BaseTopic` state the claims are about (topic.py lines 110-165).
`maxDeadLetters = 0` gives an unbounded queue, matching
`queue.Queue(maxsize=0)`. The wall-clock metric fields (`last_processed`,
`latency_avg`) are not modelled; `eventsProcessed` mirrors
`events_processed`. -/
structure TopicState where
  fullId : String
  blacklist : List String
  whitelist : Option (List String)
  strategy : ErrorStrategy
  errorHandler : Option (Exc → ErrPayload → Except Exc Unit)
  handlers : List Handler
  deadLetters : List (Exc × ErrPayload)
  maxDeadLetters : Nat
  eventsProcessed : Nat

/-- topic.py lines 137-160: `BaseTopic.__init__`. Line 146 reads
`set(whitelist or []) if whitelist else None`: the whitelist is kept only
when the argument is truthy, so Python None AND the empty list both leave
the topic without a whitelist. -/
def mkTopic (fullId : String) (strategy : ErrorStrategy)
    (errorHandler : Option (Exc → ErrPayload → Except Exc Unit))
    (blacklist : Option (List String)) (whitelist : Option (List String))
    (maxDeadLetters : Nat) : TopicState :=
  { fullId := fullId
    blacklist := blacklist.getD []
    whitelist :=
      match whitelist with
      | none => none
      | some [] => none
      | some l => some l
    strategy := strategy
    errorHandler := errorHandler
    handlers := []
    deadLetters := []
    maxDeadLetters := maxDeadLetters
    eventsProcessed := 0 }

/-- topic.py lines 167-183: `is_sender_allowed` - blocked when in the
blacklist, otherwise checked against the whitelist when one is set, else
allowed. -/
def TopicState.is_sender_allowed (s : TopicState) (senderId : String) : Bool :=
  if s.blacklist.contains senderId then false
  else
    match s.whitelist with
    | some wl => wl.contains senderId
    | none => true

/-- topic.py lines 359-365: `_insert_handler_by_priority` - the new handler
is inserted immediately before the first existing handler of strictly lower
priority, else appended. -/
def insertHandlerByPriority (hs : List Handler) (nh : Handler) : List Handler :=
  match hs with
  | [] => [nh]
  | h :: rest =>
    if nh.priority > h.priority then nh :: h :: rest
    else h :: insertHandlerByPriority rest nh

/-- topic.py lines 248-300: `_register_handler`, restricted to its effect on
the handler list (sender-closure attributes and debug logging are outside
the claims). -/
def TopicState.registerHandler (s : TopicState) (h : Handler) : TopicState :=
  { s with handlers := insertHandlerByPriority s.handlers h }

/-- topic.py lines 448-451: `self._dead_letters.put_nowait((exc, data))`
guarded by `except queue.Full: pass` - the new entry is silently dropped
when the queue is full; maxsize 0 means unbounded. -/
def TopicState.enqueueDeadLetter (s : TopicState) (e : Exc) (p : ErrPayload) :
    TopicState :=
  if s.maxDeadLetters == 0 || s.deadLetters.length < s.maxDeadLetters then
    { s with deadLetters := s.deadLetters ++ [(e, p)] }
  else s

/-- topic.py lines 464-473: `_default_error_handler` - RAISE raises a
`TopicProcessingError` chaining the original, WARN logs a warning, the rest
do nothing. Returns the raised exception, if any. -/
def TopicState.defaultErrorHandler (s : TopicState) (_e : Exc) : Option Exc :=
  match s.strategy with
  | .RAISE => some (.topicProcessingError ("Critical error in topic " ++ s.fullId))
  | _ => none

/-- topic.py lines 445-462: `_handle_error`. The failure is first enqueued
into the dead-letter queue (regardless of strategy); CUSTOM with a
configured handler then runs it guarded - an exception inside it is caught
and logged (lines 457-460), never propagated - and every other case
delegates to `_default_error_handler`, whose RAISE branch raises. Returns
the new state and the exception propagating out of `_handle_error`, if
any. -/
def TopicState.handleError (s : TopicState) (e : Exc) (p : ErrPayload) :
    TopicState × Option Exc :=
  let s1 := s.enqueueDeadLetter e p
  match s1.strategy, s1.errorHandler with
  | .CUSTOM, some h =>
    let _ := h e p
    (s1, none)
  | _, _ => (s1, s1.defaultErrorHandler e)

/-- topic.py lines 475-486: `_update_metrics`; `events_processed` is
incremented on every call (the latency moving average is wall-clock data,
not modelled). -/
def TopicState.updateMetrics (s : TopicState) (_success : Bool) : TopicState :=
  { s with eventsProcessed := s.eventsProcessed + 1 }

/-- topic.py lines 308-333: the `sync_wrapper` wrapped around every sync
handler at registration. On success it updates the metrics; on an exception
it updates the metrics, calls `_handle_error`, and - only if `_handle_error`
returned normally and the strategy is RAISE - raises its own
`TopicProcessingError` (lines 330-333; under RAISE `_handle_error` already
raises, so that line is unreachable). Broker transactions are not in scope.
Returns the new state and the exception escaping the wrapper, if any. -/
def TopicState.syncWrapper (s : TopicState) (h : Handler) (d : Value) :
    TopicState × Option Exc :=
  match h.behavior d with
  | .ok _ => (s.updateMetrics true, none)
  | .error e =>
    let s1 := s.updateMetrics false
    let (s2, raised) := s1.handleError e (.dataOf d)
    match raised with
    | some exc => (s2, some exc)
    | none =>
      if s2.strategy == .RAISE then
        (s2, some (.topicProcessingError ("Critical error in topic " ++ s2.fullId ++ " handler")))
      else (s2, none)

/-- topic.py line 433, negated: a handler is skipped unless the
destination equals its name, or is one of its aliases, or the handler is
generic (a missing destination never equals a name and is never in the
alias list). -/
def Handler.matches (h : Handler) (dest : Option String) : Bool :=
  dest == some h.name
    || (match dest with
        | some d => h.aliases.contains d
        | none => false)
    || h.generic

/-- topic.py lines 431-443: the loop of `handle_event` over the enumerated
handler list. Async handlers are scheduled with `asyncio.create_task`
(fire-and-forget: their exceptions never reach this code path); sync
handlers run through their wrapper. An exception escaping the wrapper
reaches the except clause, which calls `_handle_error` again; if that
raises, the exception propagates out of `handle_event`, otherwise a RAISE
strategy breaks out of the loop. Returns the state, the positions of the
handlers that were invoked or scheduled, and the escaping exception, if
any. -/
def runHandlers (ev : TopicMessage) :
    TopicState → List (Nat × Handler) → TopicState × List Nat × Option Exc
  | s, [] => (s, [], none)
  | s, (i, h) :: rest =>
    if !h.matches ev.destination then runHandlers ev s rest
    else if h.isAsync then
      let (s1, l, r) := runHandlers ev s rest
      (s1, i :: l, r)
    else
      match s.syncWrapper h ev.data with
      | (s1, none) =>
        let (s2, l, r) := runHandlers ev s1 rest
        (s2, i :: l, r)
      | (s1, some exc) =>
        match s1.handleError exc (.dataOf ev.data) with
        | (s2, some exc2) => (s2, [i], some exc2)
        | (s2, none) =>
          if s2.strategy == .RAISE then (s2, [i], none)
          else
            let (s3, l, r) := runHandlers ev s2 rest
            (s3, i :: l, r)

/-- topic.py lines 424-443: `handle_event`. -/
def TopicState.handle_event (s : TopicState) (ev : TopicMessage) :
    TopicState × List Nat × Option Exc :=
  runHandlers ev s s.handlers.enum

/-- topic.py lines 404-422: `publish_event`. A blocked sender is routed to
`_handle_error` with a PermissionError built from the sender and topic ids,
and the method returns without reaching any handler; otherwise the event
goes to `handle_event`. -/
def TopicState.publish_event (s : TopicState) (ev : TopicMessage) :
    TopicState × List Nat × Option Exc :=
  if !s.is_sender_allowed ev.sender then
    let (s1, r) := s.handleError
      (.permissionError ("Sender " ++ ev.sender ++ " blocked by security policy in topic " ++ s.fullId))
      (.eventOf ev)
    (s1, [], r)
  else s.handle_event ev

/-- Stored state of a `StreamlitComponentParser` (simplest
core/build/cstparser.py lines 6-24; the declarative_streamlit Parser base,
core/build/base.py lines 15-49, carries the same fields with the same
parse-relevant defaults, `autoconfig` true among them). `componentName` is
the `__name__` of the component, used by serialization. -/
structure ParserState where
  componentName : String
  component : List Value → KwArgs → Except Exc Value
  args : List Value
  kwargs : KwArgs
  stateful : Bool
  fatal : Bool
  errhandler : Option (Exc → Bool)
  strict : Bool
  autoconfig : Bool
  effects : List (Value → Except Exc Unit)

/-- The element materialized by `parse`: an IElement when stateful, else a
VElement, reduced to the configuration applied to it by `parse`.
`strict` is an `Option` because `set_strict` is applied only on the
IElement branch. -/
structure ParsedElement where
  isStateful : Bool
  args : List Value
  kwargs : KwArgs
  fatal : Bool
  strict : Option Bool
  errhandler : Option (Exc → Bool)
  effects : List (Value → Except Exc Unit)

/-- simplest cstparser.py lines 187-223 (identically declarative_streamlit
cstparser.py lines 26-62): `parse(stateful, fatal, errhandler, strict)`.
When `autoconfig` is set the four stored flags replace the call-time
arguments; the element is then built from the stored args/kwargs of the parser,
configured with the effective flags, and the effects of the parser are copied
onto it. The call-time defaults in the source are
`stateful=False, fatal=True, errhandler=None, strict=True`. -/
def ParserState.parse (p : ParserState) (stateful fatal : Bool)
    (errhandler : Option (Exc → Bool)) (strict : Bool) : ParsedElement :=
  let stateful := if p.autoconfig then p.stateful else stateful
  let fatal := if p.autoconfig then p.fatal else fatal
  let errhandler := if p.autoconfig then p.errhandler else errhandler
  let strict := if p.autoconfig then p.strict else strict
  if stateful then
    { isStateful := true
      args := p.args
      kwargs := p.kwargs
      fatal := fatal
      strict := some strict
      errhandler := errhandler
      effects := p.effects }
  else
    { isStateful := false
      args := p.args
      kwargs := p.kwargs
      fatal := fatal
      strict := none
      errhandler := errhandler
      effects := p.effects }

/-- The `parse()` call with no arguments, as `serialize` makes it: the source defaults
`stateful=False, fatal=True, errhandler=None, strict=True`. -/
def ParserState.parseDefaults (p : ParserState) : ParsedElement :=
  p.parse false true none true

/-- Leaf of a serialized structure: a string, a boolean flag, or the
args/kwargs object. -/
inductive SLeaf where
  | str (v : String)
  | flag (b : Bool)
  | argsOf (a : List Value) (k : KwArgs)
  deriving Repr, DecidableEq

/-- Top-level entry of a serialized parser: a nested dict or a string. -/
inductive STop where
  | sub (d : List (String × SLeaf))
  | str (v : String)
  deriving Repr, DecidableEq

/-- Modelled from the spec: the element-level `serialize` of
the VElement/IElement of declarative_streamlit, whose source files are imported
by cstparser.py but are not under src. The serialization-format
section names the element keys `__component__` and `__args__`, the shape
`StreamlitComponentParser.deserialize` reads back (cstparser.py lines
139-155), and the sibling st_simple VElement.serialize (velement.py lines
35-50) confirms it, with `__type__` naming the element class. -/
def elementSerialize (componentName : String) (el : ParsedElement) :
    List (String × SLeaf) :=
  [("__component__", .str componentName),
   ("__args__", .argsOf el.args el.kwargs),
   ("__type__", .str (if el.isStateful then "IElement" else "VElement"))]

/-- declarative_streamlit cstparser.py lines 88-105: `serialize` builds
`self.parse().serialize()` under `__base__`, the four behavioral flags under
`__parser__`, and the discriminator entry - keyed `__engine__` in the
source - naming the concrete parser class. -/
def ParserState.serialize (p : ParserState) : List (String × STop) :=
  [("__base__", .sub (elementSerialize p.componentName p.parseDefaults)),
   ("__parser__", .sub
     [("stateful", .flag p.stateful),
      ("fatal", .flag p.fatal),
      ("strict", .flag p.strict),
      ("autoconfig", .flag p.autoconfig)]),
   ("__engine__", .str "StreamlitComponentParser")]

/-- Concrete renderable for exercising the fatal marker path: no error
handler, fatal set, base component raising ValueError. -/
def rC1fatal : Renderable :=
  { cid := 7
    args := []
    kwargs := []
    base := some (fun _ _ => .error (.valueError "boom"))
    fatal := true
    errhandler := none
    effects := [] }

/-- The same renderable with `fatal` cleared. -/
def rC1nonfatal : Renderable := { rC1fatal with fatal := false }

/-- Concrete renderable whose first effect raises and whose second effect
succeeds, with no error handler set. -/
def rC7 : Renderable :=
  { cid := 3
    args := []
    kwargs := []
    base := some (fun _ _ => .ok (.vint 1))
    fatal := true
    errhandler := none
    effects := [fun _ => .error (.valueError "effect boom"), fun _ => .ok ()] }

/-- Concrete renderable with handled effect failures: the error handler
returns True for every exception. -/
def rC7handled : Renderable :=
  { rC7 with errhandler := some (fun _ => true) }

/-- Concrete renderable with one stored positional argument. -/
def rC9 : Renderable :=
  { cid := 1
    args := [.vstr "stored"]
    kwargs := [("sk", .vint 5)]
    base := some (fun _ _ => .ok (.vint 1))
    fatal := true
    errhandler := none
    effects := [] }

/-- Handler named A, priority 1 (the scenario of spec property P2). -/
def hA : Handler :=
  { name := "A", aliases := [], priority := 1, generic := false,
    isAsync := false, behavior := fun _ => .ok () }

/-- Handler named B with alias A, priority 1. -/
def hB : Handler :=
  { name := "B", aliases := ["A"], priority := 1, generic := false,
    isAsync := false, behavior := fun _ => .ok () }

/-- Generic handler named C. -/
def hC : Handler :=
  { name := "C", aliases := [], priority := 0, generic := true,
    isAsync := false, behavior := fun _ => .ok () }

/-- Topic holding the P2 scenario handlers, WARN strategy. -/
def sP2 : TopicState :=
  { fullId := "t@1.0.0"
    blacklist := []
    whitelist := none
    strategy := .WARN
    errorHandler := none
    handlers := [hA, hB, hC]
    deadLetters := []
    maxDeadLetters := 100
    eventsProcessed := 0 }

/-- Message addressed to destination A. -/
def evA : TopicMessage := { sender := "m", destination := some "A", data := .vint 0 }

/-- Topic with sender bob blacklisted and one generic handler registered. -/
def sC4 : TopicState :=
  (mkTopic "orders@1.0.0" .WARN none (some ["bob"]) none 10).registerHandler hC

/-- Message published by the blacklisted sender bob. -/
def evBob : TopicMessage := { sender := "bob", destination := none, data := .vint 5 }

/-- Always-failing generic sync handler. -/
def hFail : Handler :=
  { name := "f", aliases := [], priority := 0, generic := true,
    isAsync := false, behavior := fun _ => .error (.valueError "fail") }

/-- Topic with dead-letter capacity 2 and one always-failing handler,
parameterized by the error strategy. -/
def sC5 (strat : ErrorStrategy) : TopicState :=
  { fullId := "t@1.0.0"
    blacklist := []
    whitelist := none
    strategy := strat
    errorHandler := none
    handlers := [hFail]
    deadLetters := []
    maxDeadLetters := 2
    eventsProcessed := 0 }

/-- Message driving the failing handler. -/
def evC5 : TopicMessage := { sender := "s", destination := none, data := .vint 0 }

/-- Topic whose dead-letter queue is already full (capacity 2). -/
def sFullC5 : TopicState :=
  { sC5 .WARN with
    deadLetters := [(.valueError "one", .dataOf .vnone), (.valueError "two", .dataOf .vnone)] }

/-- Dead-letter queue invariant: the capacity field equals `cap` and the
queue holds at most `cap` entries. -/
def deadLetterInv (cap : Nat) (s : TopicState) : Prop :=
  s.maxDeadLetters = cap ∧ s.deadLetters.length ≤ cap

/-- The PermissionError `publish_event` builds for a blocked sender
(topic.py lines 412-416). -/
def securityRejection (s : TopicState) (ev : TopicMessage) : Exc :=
  .permissionError ("Sender " ++ ev.sender ++ " blocked by security policy in topic " ++ s.fullId)

/-- Concrete parser mirroring the test fixture of the repository itself
(button component, one positional arg, a key kwarg), stored fatal cleared,
autoconfig set. -/
def pC8 : ParserState :=
  { componentName := "button"
    component := fun _ _ => .ok (.vbool true)
    args := [.vstr "test"]
    kwargs := [("key", .vstr "test")]
    stateful := false
    fatal := false
    errhandler := none
    strict := true
    autoconfig := true
    effects := [] }

/-- Concrete parser with autoconfig set and stored fatal cleared (the
precedence scenario of spec property P7). -/
def pC6 : ParserState :=
  { componentName := "text"
    component := fun _ _ => .ok .vnone
    args := []
    kwargs := []
    stateful := false
    fatal := false
    errhandler := none
    strict := true
    autoconfig := true
    effects := [] }

/-- C1: with the base component raising and no error handler, `_safe_render`
returns a NonRenderError marker whose truthiness equals the fatal flag and
whose non-fatal invocation returns the (exception, component) pair - but
invoking the fatal marker does NOT re-raise the original exception: the
source executes `raise self from self.message` on a class that does not
derive from BaseException, so the invocation raises
`TypeError: exceptions must derive from BaseException` instead of the
original ValueError. -/
theorem C1_fatal_marker_behavior :
    rC1fatal.safe_render_simplest [] []
      = (.marker ⟨.valueError "boom", true, 7⟩, ([], []), [])
    ∧ (NonRenderError.mk (.valueError "boom") true 7).toBool = true
    ∧ (NonRenderError.mk (.valueError "boom") true 7).call
        = .error (.typeError "exceptions must derive from BaseException")
    ∧ Exc.typeError "exceptions must derive from BaseException"
        ≠ Exc.valueError "boom"
    ∧ rC1nonfatal.safe_render_simplest [] []
      = (.marker ⟨.valueError "boom", false, 7⟩, ([], []), [])
    ∧ (NonRenderError.mk (.valueError "boom") false 7).toBool = false
    ∧ (NonRenderError.mk (.valueError "boom") false 7).call
        = .ok (.valueError "boom", 7) :=
  ⟨rfl, rfl, rfl, by decide, rfl, rfl, rfl⟩

/-- C10: constructing a topic with an empty whitelist leaves the topic
without a whitelist (Python `if whitelist` is false for the empty list), so
every sender outside the blacklist is allowed. -/
theorem C10_empty_whitelist (fid : String) (strat : ErrorStrategy)
    (eh : Option (Exc → ErrPayload → Except Exc Unit))
    (bl : Option (List String)) (cap : Nat) :
    (mkTopic fid strat eh bl (some []) cap).whitelist = none
    ∧ ∀ sender : String, (bl.getD []).contains sender = false →
        (mkTopic fid strat eh bl (some []) cap).is_sender_allowed sender = true := by
  refine ⟨rfl, ?_⟩
  intro sender hs
  have hmem : sender ∉ bl.getD [] := by simpa using hs
  simp [mkTopic, TopicState.is_sender_allowed, hmem]

/-- Witness for C10: with blacklist [bob] and whitelist [], sender alice is
allowed. -/
theorem C10_witness :
    ((some ["bob"] : Option (List String)).getD []).contains "alice" = false
    ∧ (mkTopic "t@1.0.0" .WARN none (some ["bob"]) (some []) 10).is_sender_allowed "alice"
        = true :=
  ⟨rfl, (C10_empty_whitelist "t@1.0.0" .WARN none (some ["bob"]) 10).2 "alice" rfl⟩

/-- C8 counterexample: on a concrete parser, the top-level keys produced by
`serialize` are `__base__`, `__parser__` and `__engine__`; there is no
top-level `__type__` discriminator, contrary to the claim. -/
theorem C8_counterexample :
    pC8.serialize.map Prod.fst = ["__base__", "__parser__", "__engine__"]
    ∧ (pC8.serialize.map Prod.fst).contains "__type__" = false :=
  ⟨rfl, rfl⟩

/-- C8 (amended): `serialize` produces exactly three top-level entries -
`__base__` holding the materialized base render state, `__parser__` holding
the stateful/fatal/strict/autoconfig flags, and a discriminator identifying
the concrete Parser variant, keyed `__engine__` (not `__type__`). -/
theorem C8_serialize_namespaces (p : ParserState) :
    p.serialize.map Prod.fst = ["__base__", "__parser__", "__engine__"]
    ∧ p.serialize.lookup "__base__"
        = some (.sub (elementSerialize p.componentName p.parseDefaults))
    ∧ p.serialize.lookup "__parser__"
        = some (.sub
            [("stateful", .flag p.stateful), ("fatal", .flag p.fatal),
             ("strict", .flag p.strict), ("autoconfig", .flag p.autoconfig)])
    ∧ p.serialize.lookup "__engine__" = some (.str "StreamlitComponentParser") :=
  ⟨rfl, rfl, rfl, rfl⟩

/-- C6: with autoconfig set, `parse` configures the produced element from
the stored flags of the Parser, ignoring every call-time argument; with
autoconfig cleared, the call-time arguments win (strict is applied only on
the stateful branch). -/
theorem C6_autoconfig_precedence (p : ParserState) (st f : Bool)
    (eh : Option (Exc → Bool)) (sr : Bool) :
    ((p.parse st f eh sr).fatal = if p.autoconfig then p.fatal else f)
    ∧ ((p.parse st f eh sr).isStateful = if p.autoconfig then p.stateful else st)
    ∧ ((p.parse st f eh sr).errhandler = if p.autoconfig then p.errhandler else eh)
    ∧ ((p.parse st f eh sr).strict
        = if (if p.autoconfig then p.stateful else st)
            then some (if p.autoconfig then p.strict else sr) else none)
    ∧ (p.autoconfig = true →
        p.parse st f eh sr = p.parse p.stateful p.fatal p.errhandler p.strict) := by
  by_cases ha : p.autoconfig
  · by_cases hs : p.stateful <;> simp [ParserState.parse, ha, hs]
  · by_cases hst : st <;> simp [ParserState.parse, ha, hst]

/-- Witness for C6: a parser with autoconfig set and stored fatal cleared
yields a non-fatal element even when `parse` is called with fatal set. -/
theorem C6_witness :
    pC6.autoconfig = true
    ∧ (pC6.parse false true none true).fatal = (if pC6.autoconfig then pC6.fatal else true)
    ∧ (pC6.parse false true none true).fatal = false
    ∧ pC6.parse false true none true = pC6.parse pC6.stateful pC6.fatal pC6.errhandler pC6.strict := by
  refine ⟨rfl, (C6_autoconfig_precedence pC6 false true none true).1, rfl,
    (C6_autoconfig_precedence pC6 false true none true).2.2.2.2 rfl⟩

theorem render_velement_simplest_args (r : Renderable) (a : List Value) (k : KwArgs) :
    (r.render_velement_simplest a k).2 = (r.args, r.kwargs) := by
  unfold Renderable.render_velement_simplest
  rcases r.base with _ | f <;> rfl

theorem render_velement_st_args (r : Renderable) (a : List Value) (k : KwArgs) :
    (r.render_velement_st a k).2
      = ((if a.isEmpty then r.args else a), (if k.isEmpty then r.kwargs else k)) := by
  unfold Renderable.render_velement_st
  rcases r.base with _ | f <;> rfl

theorem safe_render_simplest_base_args (r : Renderable) (a : List Value) (k : KwArgs) :
    (r.safe_render_simplest a k).2.1 = (r.render_velement_simplest a k).2 := by
  unfold Renderable.safe_render_simplest
  rcases h : r.render_velement_simplest a k with ⟨res, bc⟩
  cases res with
  | ok v =>
    by_cases ht : v.truthy
    · rcases he : runEffectsSimplest r.effects 0 v with ⟨o, l⟩
      cases o <;> simp [h, ht, he]
    · simp [h, ht]
  | error e => simp [h]

theorem safe_render_st_base_args (r : Renderable) (a : List Value) (k : KwArgs) :
    (r.safe_render_st a k).2.1 = (r.render_velement_st a k).2 := by
  unfold Renderable.safe_render_st
  rcases h : r.render_velement_st a k with ⟨res, bc⟩
  cases res with
  | ok v =>
    by_cases ht : v.truthy
    · rcases he : runEffectsSt r r.effects 0 v with ⟨o, l⟩
      cases o <;> simp [h, ht, he]
    · simp [h, ht]
  | error e => simp [h]

/-- C9 counterexample: a simplest-variant VElement with a stored positional
argument, called with an explicit argument, still invokes its base component
with the STORED args/kwargs, contrary to the claim that call-time arguments
override the stored ones. -/
theorem C9_counterexample :
    rC9.call_simplest [.vstr "call"] []
      = .ok (.value (.vint 1), ([.vstr "stored"], [("sk", .vint 5)]), [])
    ∧ (([.vstr "stored"], [("sk", .vint 5)]) : ArgPair)
        ≠ (([.vstr "call"], []) : ArgPair) :=
  ⟨rfl, by decide⟩

/-- C9 (amended): with a base component set, a no-argument call invokes the
base component with the stored args/kwargs in both variants; in the simplest
variant every call does so (`VElement.render` ignores call-time arguments),
while in the st_simple variant call-time positional arguments replace the
stored ones only when at least one is given, and call-time keyword
arguments replace the stored ones only when at least one is given, each
independently. -/
theorem C9_call_args (r : Renderable) (f : List Value → KwArgs → Except Exc Value)
    (hbase : r.base = some f) (args : List Value) (kwargs : KwArgs) :
    (r.call_simplest args kwargs).map (fun out => out.2.1) = .ok (r.args, r.kwargs)
    ∧ (r.call_st args kwargs).map (fun out => out.2.1)
        = .ok ((if args.isEmpty then r.args else args),
               (if kwargs.isEmpty then r.kwargs else kwargs)) := by
  constructor
  · unfold Renderable.call_simplest
    rw [hbase]
    by_cases hak : args.isEmpty && kwargs.isEmpty <;>
      simp [hak, Except.map, safe_render_simplest_base_args, render_velement_simplest_args]
  · unfold Renderable.call_st
    rw [hbase]
    by_cases ha : args.isEmpty <;> by_cases hk : kwargs.isEmpty <;>
      simp [ha, hk, Except.map, safe_render_st_base_args, render_velement_st_args]

/-- Witness for C9 at a concrete renderable: the no-argument call uses the
stored arguments, and an st_simple call with one positional argument keeps
the stored kwargs. -/
theorem C9_witness :
    (rC9.call_simplest [] []).map (fun out => out.2.1) = .ok (rC9.args, rC9.kwargs)
    ∧ (rC9.call_st [.vstr "call"] []).map (fun out => out.2.1)
        = .ok ((if ([Value.vstr "call"] : List Value).isEmpty then rC9.args else [.vstr "call"]),
               (if ([] : KwArgs).isEmpty then rC9.kwargs else [])) :=
  ⟨(C9_call_args rC9 (fun _ _ => .ok (.vint 1)) rfl [] []).1,
   (C9_call_args rC9 (fun _ _ => .ok (.vint 1)) rfl [.vstr "call"] []).2⟩

theorem runEffectsSt_all_ok (r : Renderable) (v : Value) :
    ∀ (effects : List (Value → Except Exc Unit)) (i : Nat),
      (∀ eff ∈ effects, r.safe_effect_execution eff v = none) →
      runEffectsSt r effects i v = (none, List.range' i effects.length) := by
  intro effects
  induction effects with
  | nil => intro i _; simp [runEffectsSt, List.range']
  | cons eff rest ih =>
    intro i h
    have h1 : r.safe_effect_execution eff v = none := h eff (List.mem_cons_self _ _)
    have h2 := ih (i + 1) (fun e he => h e (List.mem_cons_of_mem _ he))
    simp [runEffectsSt, h1, h2, List.range'_succ]

theorem runEffectsSt_abort (r : Renderable) (v : Value) (e : Exc)
    (eff : Value → Except Exc Unit) :
    ∀ (es1 es2 : List (Value → Except Exc Unit)) (i : Nat),
      (∀ eff1 ∈ es1, r.safe_effect_execution eff1 v = none) →
      r.safe_effect_execution eff v = some e →
      runEffectsSt r (es1 ++ eff :: es2) i v = (some e, List.range' i (es1.length + 1)) := by
  intro es1
  induction es1 with
  | nil => intro es2 i _ h2; simp [runEffectsSt, h2, List.range'_succ, List.range']
  | cons eff0 rest ih =>
    intro es2 i h1 h2
    have h0 : r.safe_effect_execution eff0 v = none := h1 eff0 (List.mem_cons_self _ _)
    have hrec := ih es2 (i + 1) (fun x hx => h1 x (List.mem_cons_of_mem _ hx)) h2
    simp [runEffectsSt, h0, hrec, List.range'_succ]

/-- C7 counterexample: in the st_simple safe-render wrapper, a renderable
whose first effect raises and has no error handler never reaches its second
effect - effect failure is caught individually but, unhandled, re-raised
into `_safe_render`, aborting the rest of the chain; moreover the marker
wraps UnboundLocalError (the unset `status` local), not the exception the
effect raised. -/
theorem C7_counterexample :
    (rC7.safe_render_st [] []).2.2 = [0]
    ∧ ((rC7.safe_render_st [] []).2.2).contains 1 = false
    ∧ (rC7.safe_render_st [] []).1
        = .marker ⟨.unboundLocalError "local variable status referenced before assignment",
                   true, 3⟩ :=
  ⟨rfl, rfl, rfl⟩

/-- C7 (amended): each effect exception is caught individually and put to
the error handler; when the handler handles (returns truthy) every effect
failure, all later effects still run and the render result is returned.
When some effect failure is unhandled, the re-raised exception (the original
one with a falsy handler verdict, an UnboundLocalError when no handler is
set) aborts the remaining effects, and `_safe_render` resolves it through
its render-error path: with no handler or a falsy verdict it returns the
NonRenderError marker carrying the exception and the fatal flag. -/
theorem C7_effect_isolation (r : Renderable) (args : List Value) (kwargs : KwArgs)
    (v : Value) (bc : ArgPair)
    (hrender : r.render_velement_st args kwargs = (.ok v, bc))
    (htruthy : v.truthy = true) :
    ((∀ eff ∈ r.effects, r.safe_effect_execution eff v = none) →
      r.safe_render_st args kwargs = (.value v, bc, List.range r.effects.length))
    ∧ (∀ (es1 es2 : List (Value → Except Exc Unit))
         (eff : Value → Except Exc Unit) (e : Exc),
        r.effects = es1 ++ eff :: es2 →
        (∀ eff1 ∈ es1, r.safe_effect_execution eff1 v = none) →
        r.safe_effect_execution eff v = some e →
        r.safe_render_st args kwargs
          = (r.renderExcept e, bc, List.range (es1.length + 1)))
    ∧ (∀ e : Exc,
        (r.errhandler = none ∨ ∃ h, r.errhandler = some h ∧ h e = false) →
        r.renderExcept e = .marker ⟨e, r.fatal, r.cid⟩) := by
  refine ⟨?_, ?_, ?_⟩
  · intro hall
    have hrun := runEffectsSt_all_ok r v r.effects 0 hall
    simp [Renderable.safe_render_st, hrender, htruthy, hrun, List.range_eq_range']
  · intro es1 es2 eff e heq h1 h2
    have hrun := runEffectsSt_abort r v e eff es1 es2 0 h1 h2
    rw [← heq] at hrun
    simp [Renderable.safe_render_st, hrender, htruthy, hrun, List.range_eq_range']
  · intro e he
    rcases he with hnone | ⟨h, hh, hfalse⟩
    · simp [Renderable.renderExcept, hnone]
    · simp [Renderable.renderExcept, hh, hfalse]

/-- Witness for C7: with an error handler that handles every failure, both
effects of the chain run despite the first one raising. -/
theorem C7_witness :
    rC7handled.render_velement_st [] [] = (.ok (.vint 1), ([], []))
    ∧ (Value.vint 1).truthy = true
    ∧ (∀ eff ∈ rC7handled.effects, rC7handled.safe_effect_execution eff (.vint 1) = none)
    ∧ rC7handled.safe_render_st [] []
        = (.value (.vint 1), ([], []), List.range rC7handled.effects.length) := by
  have hall : ∀ eff ∈ rC7handled.effects,
      rC7handled.safe_effect_execution eff (.vint 1) = none := by
    intro eff he
    simp [rC7handled, rC7] at he
    rcases he with rfl | rfl <;> rfl
  exact ⟨rfl, rfl, hall,
    (C7_effect_isolation rC7handled [] [] (.vint 1) ([], []) rfl rfl).1 hall⟩

theorem snd_mem_of_mem_enumFrom {α : Type} :
    ∀ (l : List α) (n : Nat) (p : Nat × α), p ∈ l.enumFrom n → p.2 ∈ l := by
  intro l
  induction l with
  | nil => intro n p hp; simp [List.enumFrom] at hp
  | cons a t ih =>
    intro n p hp
    rcases List.mem_cons.mp hp with rfl | hp1
    · exact List.mem_cons_self _ _
    · exact List.mem_cons_of_mem _ (ih (n + 1) p hp1)

theorem runHandlers_sound (ev : TopicMessage) :
    ∀ (l : List (Nat × Handler)) (s : TopicState) (i : Nat),
      i ∈ (runHandlers ev s l).2.1 →
      ∃ h : Handler, (i, h) ∈ l ∧ h.matches ev.destination = true := by
  intro l
  induction l with
  | nil => intro s i hi; simp [runHandlers] at hi
  | cons p rest ih =>
    intro s i hi
    obtain ⟨j, h⟩ := p
    by_cases hm : h.matches ev.destination
    · by_cases hasync : h.isAsync
      · simp only [runHandlers, hm, hasync] at hi
        simp at hi
        rcases hi with rfl | hi1
        · exact ⟨h, List.mem_cons_self _ _, hm⟩
        · obtain ⟨h1, hmem, hm1⟩ := ih _ i hi1
          exact ⟨h1, List.mem_cons_of_mem _ hmem, hm1⟩
      · rcases hsw : s.syncWrapper h ev.data with ⟨s1, o⟩
        cases o with
        | none =>
          simp only [runHandlers, hm, hasync, hsw] at hi
          simp at hi
          rcases hi with rfl | hi1
          · exact ⟨h, List.mem_cons_self _ _, hm⟩
          · obtain ⟨h1, hmem, hm1⟩ := ih _ i hi1
            exact ⟨h1, List.mem_cons_of_mem _ hmem, hm1⟩
        | some exc =>
          rcases hhe : s1.handleError exc (.dataOf ev.data) with ⟨s2, o2⟩
          cases o2 with
          | none =>
            by_cases hst : s2.strategy == ErrorStrategy.RAISE
            · simp only [runHandlers, hm, hasync, hsw, hhe, hst] at hi
              simp at hi
              subst hi
              exact ⟨h, List.mem_cons_self _ _, hm⟩
            · simp only [runHandlers, hm, hasync, hsw, hhe, hst] at hi
              simp at hi
              rcases hi with rfl | hi1
              · exact ⟨h, List.mem_cons_self _ _, hm⟩
              · obtain ⟨h1, hmem, hm1⟩ := ih _ i hi1
                exact ⟨h1, List.mem_cons_of_mem _ hmem, hm1⟩
          | some exc2 =>
            simp only [runHandlers, hm, hasync, hsw, hhe] at hi
            simp at hi
            subst hi
            exact ⟨h, List.mem_cons_self _ _, hm⟩
    · simp only [runHandlers, hm] at hi
      simp at hi
      obtain ⟨h1, hmem, hm1⟩ := ih _ i hi
      exact ⟨h1, List.mem_cons_of_mem _ hmem, hm1⟩

theorem runHandlers_complete (ev : TopicMessage) :
    ∀ (l : List (Nat × Handler)) (s : TopicState),
      (∀ p ∈ l, (p : Nat × Handler).2.isAsync = false → p.2.behavior ev.data = .ok ()) →
      (runHandlers ev s l).2.1
        = (l.filter (fun p => p.2.matches ev.destination)).map Prod.fst := by
  intro l
  induction l with
  | nil => intro s _; simp [runHandlers]
  | cons p rest ih =>
    intro s hok
    obtain ⟨j, h⟩ := p
    have hrest : ∀ q ∈ rest, (q : Nat × Handler).2.isAsync = false →
        q.2.behavior ev.data = .ok () :=
      fun q hq => hok q (List.mem_cons_of_mem _ hq)
    by_cases hm : h.matches ev.destination
    · by_cases hasync : h.isAsync
      · simp [runHandlers, hm, hasync, List.filter_cons, ih _ hrest]
      · have hbeh : h.behavior ev.data = .ok () :=
          hok (j, h) (List.mem_cons_self _ _) (by simpa using hasync)
        have hsw : s.syncWrapper h ev.data = (s.updateMetrics true, none) := by
          simp [TopicState.syncWrapper, hbeh]
        simp [runHandlers, hm, hasync, hsw, List.filter_cons, ih _ hrest]
    · simp [runHandlers, hm, List.filter_cons, ih _ hrest]

/-- C2: `handle_event` invokes only handlers whose name equals the
destination of the message, or whose aliases include it, or which are generic
(unconditionally); and when no sync handler fails on the message data it
invokes exactly the matching handlers, in list order. -/
theorem C2_handler_matching (s : TopicState) (ev : TopicMessage) :
    (∀ i ∈ (s.handle_event ev).2.1,
       ∃ h : Handler, (i, h) ∈ s.handlers.enum ∧ h.matches ev.destination = true)
    ∧ ((∀ h ∈ s.handlers, h.isAsync = false → h.behavior ev.data = .ok ()) →
       (s.handle_event ev).2.1
         = (s.handlers.enum.filter (fun p => p.2.matches ev.destination)).map Prod.fst) := by
  constructor
  · intro i hi
    exact runHandlers_sound ev s.handlers.enum s i hi
  · intro hok
    refine runHandlers_complete ev s.handlers.enum s ?_
    intro p hp ha
    exact hok p.2 (snd_mem_of_mem_enumFrom s.handlers 0 p hp) ha

/-- Witness for C2, the scenario of spec property P2: destination A reaches the
handler named A, the handler aliased A and the generic handler - exactly the
matching ones. -/
theorem C2_witness :
    (∀ h ∈ sP2.handlers, h.isAsync = false → h.behavior evA.data = .ok ())
    ∧ (sP2.handle_event evA).2.1
        = (sP2.handlers.enum.filter (fun p => p.2.matches evA.destination)).map Prod.fst
    ∧ (sP2.handle_event evA).2.1 = [0, 1, 2] := by
  have hok : ∀ h ∈ sP2.handlers, h.isAsync = false → h.behavior evA.data = .ok () := by
    intro h hh
    simp [sP2] at hh
    rcases hh with rfl | rfl | rfl <;> intro _ <;> rfl
  exact ⟨hok, (C2_handler_matching sP2 evA).2 hok, rfl⟩

theorem mem_insertHandlerByPriority (hs : List Handler) (nh x : Handler) :
    x ∈ insertHandlerByPriority hs nh ↔ x ∈ hs ∨ x = nh := by
  induction hs with
  | nil => simp [insertHandlerByPriority]
  | cons h rest ih =>
    by_cases hc : nh.priority > h.priority
    · simp only [insertHandlerByPriority, if_pos hc]
      simp
      tauto
    · simp only [insertHandlerByPriority, if_neg hc]
      simp [ih]
      tauto

theorem pairwise_insertHandlerByPriority (hs : List Handler) (nh : Handler)
    (hp : List.Pairwise (fun a b => b.priority ≤ a.priority) hs) :
    List.Pairwise (fun a b => b.priority ≤ a.priority) (insertHandlerByPriority hs nh) := by
  induction hs with
  | nil => simp [insertHandlerByPriority]
  | cons h rest ih =>
    rcases List.pairwise_cons.mp hp with ⟨hall, hrest⟩
    by_cases hc : nh.priority > h.priority
    · simp only [insertHandlerByPriority, if_pos hc]
      refine List.Pairwise.cons ?_ hp
      intro x hx
      rcases List.mem_cons.mp hx with rfl | hx1
      · exact le_of_lt hc
      · exact le_trans (hall x hx1) (le_of_lt hc)
    · simp only [insertHandlerByPriority, if_neg hc]
      refine List.Pairwise.cons ?_ (ih hrest)
      intro x hx
      rcases (mem_insertHandlerByPriority rest nh x).mp hx with hx1 | rfl
      · exact hall x hx1
      · exact not_lt.mp hc

theorem filter_insertHandlerByPriority (hs : List Handler) (nh : Handler)
    (hp : List.Pairwise (fun a b => b.priority ≤ a.priority) hs) (p : Int) :
    (insertHandlerByPriority hs nh).filter (fun h => h.priority == p)
      = hs.filter (fun h => h.priority == p)
        ++ (if nh.priority == p then [nh] else []) := by
  induction hs with
  | nil =>
    by_cases hnp : nh.priority = p <;> simp [insertHandlerByPriority, hnp]
  | cons h rest ih =>
    rcases List.pairwise_cons.mp hp with ⟨hall, hrest⟩
    by_cases hc : nh.priority > h.priority
    · simp only [insertHandlerByPriority, if_pos hc]
      by_cases hnp : nh.priority = p
      · have hfe : (h :: rest).filter (fun x => x.priority == p) = [] := by
          rw [List.filter_eq_nil_iff]
          intro x hx
          have hxle : x.priority ≤ h.priority := by
            rcases List.mem_cons.mp hx with rfl | hx1
            · exact le_refl _
            · exact hall x hx1
          have : x.priority < p := lt_of_le_of_lt hxle (hnp ▸ hc)
          simp [ne_of_lt this]
        simp [List.filter_cons, hnp, hfe]
      · simp [List.filter_cons, hnp]
    · simp only [insertHandlerByPriority, if_neg hc]
      rw [List.filter_cons, List.filter_cons, ih hrest]
      by_cases hhp : h.priority = p <;> simp [hhp]

theorem foldl_insert_spec (regs : List Handler) :
    ∀ acc : List Handler,
      List.Pairwise (fun a b => b.priority ≤ a.priority) acc →
      List.Pairwise (fun a b => b.priority ≤ a.priority)
          (regs.foldl insertHandlerByPriority acc)
      ∧ ∀ p : Int,
          (regs.foldl insertHandlerByPriority acc).filter (fun h => h.priority == p)
            = acc.filter (fun h => h.priority == p)
              ++ regs.filter (fun h => h.priority == p) := by
  induction regs with
  | nil =>
    intro acc hacc
    refine ⟨by simpa using hacc, ?_⟩
    intro p
    simp
  | cons r rest ih =>
    intro acc hacc
    have h1 := pairwise_insertHandlerByPriority acc r hacc
    obtain ⟨ha, hb⟩ := ih (insertHandlerByPriority acc r) h1
    refine ⟨by simpa [List.foldl_cons] using ha, ?_⟩
    intro p
    rw [List.foldl_cons, hb p, filter_insertHandlerByPriority acc r hacc p,
      List.filter_cons]
    by_cases hrp : r.priority = p <;> simp [hrp, List.append_assoc]

theorem foldl_registerHandler_handlers (regs : List Handler) :
    ∀ s : TopicState,
      (regs.foldl TopicState.registerHandler s).handlers
        = regs.foldl insertHandlerByPriority s.handlers := by
  induction regs with
  | nil => intro s; rfl
  | cons r rest ih =>
    intro s
    rw [List.foldl_cons, List.foldl_cons, ih]
    rfl

/-- C3: after any sequence of handler registrations on a fresh topic, the
handler list is sorted by non-increasing priority, and for every priority
the handlers carrying it appear in registration order (insertion places each
new handler before the first strictly lower-priority one). -/
theorem C3_priority_ordering (regs : List Handler) (fid : String)
    (strat : ErrorStrategy) (eh : Option (Exc → ErrPayload → Except Exc Unit))
    (bl wl : Option (List String)) (cap : Nat) :
    List.Pairwise (fun a b => b.priority ≤ a.priority)
      ((regs.foldl TopicState.registerHandler (mkTopic fid strat eh bl wl cap)).handlers)
    ∧ ∀ p : Int,
      ((regs.foldl TopicState.registerHandler (mkTopic fid strat eh bl wl cap)).handlers).filter
          (fun h => h.priority == p)
        = regs.filter (fun h => h.priority == p) := by
  have hb : (regs.foldl TopicState.registerHandler (mkTopic fid strat eh bl wl cap)).handlers
      = regs.foldl insertHandlerByPriority [] := by
    rw [foldl_registerHandler_handlers]
    rfl
  obtain ⟨h1, h2⟩ := foldl_insert_spec regs [] List.Pairwise.nil
  rw [hb]
  exact ⟨h1, fun p => by rw [h2 p]; simp⟩

theorem handleError_fst (s : TopicState) (e : Exc) (p : ErrPayload) :
    (s.handleError e p).1 = s.enqueueDeadLetter e p := by
  unfold TopicState.handleError
  cases hst : (s.enqueueDeadLetter e p).strategy <;>
    cases heh : (s.enqueueDeadLetter e p).errorHandler <;>
      simp [hst, heh]

theorem enqueue_append_of_room (s : TopicState) (e : Exc) (p : ErrPayload)
    (h : s.maxDeadLetters = 0 ∨ s.deadLetters.length < s.maxDeadLetters) :
    (s.enqueueDeadLetter e p).deadLetters = s.deadLetters ++ [(e, p)] := by
  unfold TopicState.enqueueDeadLetter
  split
  · rfl
  · next hcond =>
      exfalso
      simp at hcond
      rcases h with h0 | hlt
      · exact absurd h0 hcond.1
      · exact absurd hlt (by simpa using hcond.2)

/-- C4: a sender is allowed iff it is not blacklisted and either no
whitelist is set or it is whitelisted; a publish from a disallowed sender invokes
no handler and instead routes a PermissionError through `_handle_error` -
recorded into the dead-letter queue whenever there is room - rather than
being silently dropped. -/
theorem C4_sender_security (s : TopicState) (ev : TopicMessage) :
    (s.is_sender_allowed ev.sender = true
       ↔ ev.sender ∉ s.blacklist
         ∧ (s.whitelist = none ∨ ∃ wl, s.whitelist = some wl ∧ ev.sender ∈ wl))
    ∧ (s.is_sender_allowed ev.sender = false →
        (s.publish_event ev).2.1 = []
        ∧ (s.publish_event ev).1
            = (s.handleError (securityRejection s ev) (.eventOf ev)).1
        ∧ (s.publish_event ev).2.2
            = (s.handleError (securityRejection s ev) (.eventOf ev)).2
        ∧ ((s.maxDeadLetters = 0 ∨ s.deadLetters.length < s.maxDeadLetters) →
            (s.publish_event ev).1.deadLetters
              = s.deadLetters ++ [(securityRejection s ev, .eventOf ev)])) := by
  constructor
  · unfold TopicState.is_sender_allowed
    by_cases hbl : s.blacklist.contains ev.sender
    · have hmem : ev.sender ∈ s.blacklist := by simpa using hbl
      simp [hbl, hmem]
    · have hnb : ev.sender ∉ s.blacklist := by simpa using hbl
      rcases hw : s.whitelist with _ | wl
      · simp [hbl, hw, hnb]
      · simp [hbl, hw, hnb]
  · intro hna
    rcases hhe : s.handleError (securityRejection s ev) (.eventOf ev) with ⟨s1, r⟩
    have hpub : s.publish_event ev = (s1, [], r) := by
      unfold TopicState.publish_event
      rw [hna]
      simp only [Bool.not_false, if_pos]
      rw [show (s.handleError
          (.permissionError ("Sender " ++ ev.sender
            ++ " blocked by security policy in topic " ++ s.fullId))
          (.eventOf ev)) = (s1, r) from hhe]
    refine ⟨by rw [hpub], by simp [hpub, hhe], by simp [hpub, hhe], ?_⟩
    intro hroom
    rw [hpub]
    have h1 : s1 = (s.handleError (securityRejection s ev) (.eventOf ev)).1 := by
      rw [hhe]
    rw [h1, handleError_fst]
    exact enqueue_append_of_room s _ _ hroom

/-- Witness for C4: the blacklisted sender bob is rejected - no handler of
the topic runs and the PermissionError lands in the dead-letter queue. -/
theorem C4_witness :
    sC4.is_sender_allowed evBob.sender = false
    ∧ (sC4.publish_event evBob).2.1 = []
    ∧ (sC4.publish_event evBob).1.deadLetters
        = sC4.deadLetters ++ [(securityRejection sC4 evBob, .eventOf evBob)] := by
  have hna : sC4.is_sender_allowed evBob.sender = false := rfl
  have h := (C4_sender_security sC4 evBob).2 hna
  exact ⟨hna, h.1, h.2.2.2 (Or.inr (by decide))⟩

theorem enqueue_inv (cap : Nat) (s : TopicState) (e : Exc) (p : ErrPayload)
    (hc : 0 < cap) (h : deadLetterInv cap s) :
    deadLetterInv cap (s.enqueueDeadLetter e p) := by
  obtain ⟨hm, hl⟩ := h
  unfold TopicState.enqueueDeadLetter
  split
  · next hcond =>
      refine ⟨hm, ?_⟩
      simp only [List.length_append, List.length_cons, List.length_nil]
      simp at hcond
      rcases hcond with h0 | hlt
      · omega
      · omega
  · next => exact ⟨hm, hl⟩

theorem handleError_inv (cap : Nat) (s : TopicState) (e : Exc) (p : ErrPayload)
    (hc : 0 < cap) (h : deadLetterInv cap s) :
    deadLetterInv cap (s.handleError e p).1 := by
  rw [handleError_fst]
  exact enqueue_inv cap s e p hc h

theorem syncWrapper_fst (s : TopicState) (h : Handler) (d : Value) :
    (s.syncWrapper h d).1
      = match h.behavior d with
        | .ok _ => s.updateMetrics true
        | .error e => ((s.updateMetrics false).handleError e (.dataOf d)).1 := by
  unfold TopicState.syncWrapper
  cases hb : h.behavior d with
  | ok u => simp [hb]
  | error e =>
    rcases hhe : (s.updateMetrics false).handleError e (.dataOf d) with ⟨s2, o⟩
    cases o with
    | none =>
      simp only [hb, hhe]
      split <;> rfl
    | some exc => simp [hb, hhe]

theorem syncWrapper_inv (cap : Nat) (s : TopicState) (h : Handler) (d : Value)
    (hc : 0 < cap) (hinv : deadLetterInv cap s) :
    deadLetterInv cap (s.syncWrapper h d).1 := by
  rw [syncWrapper_fst]
  cases hb : h.behavior d with
  | ok u => simp only [hb]; exact hinv
  | error e =>
    simp only [hb]
    exact handleError_inv cap (s.updateMetrics false) e (.dataOf d) hc hinv

theorem runHandlers_inv (ev : TopicMessage) (cap : Nat) (hc : 0 < cap) :
    ∀ (l : List (Nat × Handler)) (s : TopicState),
      deadLetterInv cap s → deadLetterInv cap (runHandlers ev s l).1 := by
  intro l
  induction l with
  | nil => intro s hs; exact hs
  | cons p rest ih =>
    intro s hs
    obtain ⟨j, h⟩ := p
    by_cases hm : h.matches ev.destination
    · by_cases hasync : h.isAsync
      · rcases hr : runHandlers ev s rest with ⟨s1, l1, r1⟩
        have h1 := ih s hs
        rw [hr] at h1
        simp only [runHandlers, hm, hasync, hr]
        exact h1
      · rcases hsw : s.syncWrapper h ev.data with ⟨s1, o⟩
        have hs1 : deadLetterInv cap s1 := by
          have hw := syncWrapper_inv cap s h ev.data hc hs
          rw [hsw] at hw
          exact hw
        cases o with
        | none =>
          rcases hr : runHandlers ev s1 rest with ⟨s2, l2, r2⟩
          have h2 := ih s1 hs1
          rw [hr] at h2
          simp only [runHandlers, hm, hasync, hsw, hr]
          exact h2
        | some exc =>
          rcases hhe : s1.handleError exc (.dataOf ev.data) with ⟨s2, o2⟩
          have hs2 : deadLetterInv cap s2 := by
            have hw := handleError_inv cap s1 exc (.dataOf ev.data) hc hs1
            rw [hhe] at hw
            exact hw
          cases o2 with
          | some exc2 =>
            simp only [runHandlers, hm, hasync, hsw, hhe]
            exact hs2
          | none =>
            by_cases hst : s2.strategy == ErrorStrategy.RAISE
            · simp [runHandlers, hm, hasync, hsw, hhe, hst]
              exact hs2
            · rcases hr : runHandlers ev s2 rest with ⟨s3, l3, r3⟩
              have h3 := ih s2 hs2
              rw [hr] at h3
              simp [runHandlers, hm, hasync, hsw, hhe, hst, hr]
              exact h3
    · simp only [runHandlers, hm]
      simp only [Bool.not_false, if_pos]
      exact ih s hs

theorem publish_event_inv (cap : Nat) (hc : 0 < cap) (s : TopicState)
    (ev : TopicMessage) (h : deadLetterInv cap s) :
    deadLetterInv cap (s.publish_event ev).1 := by
  by_cases hall : s.is_sender_allowed ev.sender
  · simp [TopicState.publish_event, hall, TopicState.handle_event]
    exact runHandlers_inv ev cap hc s.handlers.enum s h
  · have hfalse : s.is_sender_allowed ev.sender = false := by simpa using hall
    have hinv1 := handleError_inv cap s (securityRejection s ev) (.eventOf ev) hc h
    rcases hhe : s.handleError (securityRejection s ev) (.eventOf ev) with ⟨s1, r⟩
    rw [hhe] at hinv1
    simp only [securityRejection] at hhe
    simp [TopicState.publish_event, hfalse, hhe]
    exact hinv1

/-- C5: handler failures are recorded into the dead-letter queue under every
error strategy; the queue never exceeds its (positive) capacity across
publishes; a full queue silently drops the new entry and keeps the old ones;
and with capacity 2, three publishes against a failing handler leave exactly
2 retained dead letters whatever the strategy. (A capacity of 0 is excluded:
`queue.Queue(maxsize=0)` is unbounded in Python.) -/
theorem C5_dead_letter_queue :
    (∀ (s : TopicState) (ev : TopicMessage),
       0 < s.maxDeadLetters → s.deadLetters.length ≤ s.maxDeadLetters →
       (s.publish_event ev).1.deadLetters.length ≤ s.maxDeadLetters)
    ∧ (∀ (s : TopicState) (e : Exc) (p : ErrPayload),
       0 < s.maxDeadLetters → s.deadLetters.length = s.maxDeadLetters →
       s.enqueueDeadLetter e p = s)
    ∧ (∀ (s : TopicState) (h : Handler) (d : Value) (e : Exc),
       h.behavior d = .error e →
       (s.maxDeadLetters = 0 ∨ s.deadLetters.length < s.maxDeadLetters) →
       (e, ErrPayload.dataOf d) ∈ (s.syncWrapper h d).1.deadLetters)
    ∧ (∀ strat : ErrorStrategy,
       ((((sC5 strat).publish_event evC5).1.publish_event evC5).1.publish_event
           evC5).1.deadLetters.length = 2) := by
  refine ⟨?_, ?_, ?_, ?_⟩
  · intro s ev hc hlen
    exact (publish_event_inv s.maxDeadLetters hc s ev ⟨rfl, hlen⟩).2
  · intro s e p hc hfull
    unfold TopicState.enqueueDeadLetter
    split
    · next hcond =>
        exfalso
        simp at hcond
        rcases hcond with h0 | hlt
        · omega
        · omega
    · rfl
  · intro s h d e hbeh hroom
    rw [syncWrapper_fst]
    simp only [hbeh]
    rw [handleError_fst]
    rw [enqueue_append_of_room (s.updateMetrics false) e (.dataOf d) hroom]
    exact List.mem_append_right _ (by simp)
  · intro strat
    cases strat <;> rfl

/-- Witness for C5: a full capacity-2 queue drops a further entry, and the
three-failure scenario retains exactly 2 dead letters under the WARN
strategy. -/
theorem C5_witness :
    0 < sFullC5.maxDeadLetters
    ∧ sFullC5.deadLetters.length = sFullC5.maxDeadLetters
    ∧ sFullC5.enqueueDeadLetter (.valueError "three") (.dataOf .vnone) = sFullC5
    ∧ ((((sC5 .WARN).publish_event evC5).1.publish_event evC5).1.publish_event
        evC5).1.deadLetters.length = 2 := by
  refine ⟨by decide, rfl, ?_, C5_dead_letter_queue.2.2.2 .WARN⟩
  exact C5_dead_letter_queue.2.1 sFullC5 (.valueError "three") (.dataOf .vnone)
    (by decide) rfl
